import Mathlib

/-!
Verification of the parsepico decode-reconstruct-reproject engine.

This file is a shallow embedding of the Go source (main.go) of the
parsepico converter: hexadecimal nibble decoding, the map JSON model
(base tilemap section plus the two dual-purpose bands), the spritesheet
JSON model (pixel grids, used flags, available sprite-ID ranges), the
raster rendering primitives (drawSprite, drawBlackTile, renderMap,
reconstructImage, combineSectionsIntoSpriteSheet), and the section-count
arithmetic of both the canonical and the historical variant of main.

Go strings are modelled as lists of characters, Go int as Int (no value
in this program approaches the machine bounds), images as a bounded
pixel store with the Go image semantics: Set outside the bounds is a
no-op and At outside the bounds yields the zero RGBA value.
-/

namespace Parsepico

/-- RGBA color, mirroring Go color.RGBA (component values 0..255). -/
structure RGBA where
  r : Nat
  g : Nat
  b : Nat
  a : Nat
  deriving DecidableEq

/-- The fixed 16-color PICO-8 palette, from the pico8Palette global. -/
def pico8Palette : List RGBA :=
  [⟨0, 0, 0, 255⟩,       -- 0: Black
   ⟨29, 43, 83, 255⟩,    -- 1: Dark Blue
   ⟨126, 37, 83, 255⟩,   -- 2: Dark Purple
   ⟨0, 135, 81, 255⟩,    -- 3: Dark Green
   ⟨171, 82, 54, 255⟩,   -- 4: Brown
   ⟨95, 87, 79, 255⟩,    -- 5: Dark Gray
   ⟨194, 195, 199, 255⟩, -- 6: Light Gray
   ⟨255, 241, 232, 255⟩, -- 7: White
   ⟨255, 0, 77, 255⟩,    -- 8: Red
   ⟨255, 163, 0, 255⟩,   -- 9: Orange
   ⟨255, 236, 39, 255⟩,  -- 10: Yellow
   ⟨0, 228, 54, 255⟩,    -- 11: Green
   ⟨41, 173, 255, 255⟩,  -- 12: Blue
   ⟨131, 118, 156, 255⟩, -- 13: Indigo
   ⟨255, 119, 168, 255⟩, -- 14: Pink
   ⟨255, 204, 170, 255⟩] -- 15: Peach

/-- Palette entry 0 (black), the value written by drawBlackTile and the
map background fill (pico8Palette[0] in the source). -/
def palette0 : RGBA := pico8Palette.getD 0 ⟨0, 0, 0, 0⟩

/-- parseHexChar interprets a single hex digit (0..F); -1 for any other
character. Direct translation of func parseHexChar. -/
def parseHexChar (c : Char) : Int :=
  if '0' ≤ c ∧ c ≤ '9' then (c.toNat : Int) - ('0'.toNat : Int)
  else if 'a' ≤ c ∧ c ≤ 'f' then (c.toNat : Int) - ('a'.toNat : Int) + 10
  else if 'A' ≤ c ∧ c ≤ 'F' then (c.toNat : Int) - ('A'.toNat : Int) + 10
  else -1

/-- One cell of the map JSON model, mirroring struct MapCell
{X, Y, Sprite}. -/
structure MapCell where
  x : Int
  y : Int
  sprite : Int
  deriving DecidableEq

/-- The map JSON document, mirroring struct MapSheet (the constant
version, description and name strings are omitted). -/
structure MapSheet where
  width : Int
  height : Int
  cells : List MapCell
  deriving DecidableEq

/-- Map height computation of generateMapJSON (and of main): 32 by
default, then overwritten to 48 if useSection3, then overwritten to 64
if useSection4 (the last assignment wins). -/
def mapJSONHeight (useSection3 useSection4 : Bool) : Int :=
  let height : Int := 32
  let height := if useSection3 then 48 else height
  let height := if useSection4 then 64 else height
  height

/-- Base tilemap cells of generateMapJSON: for y in 0..31 with a line
present, for x in 0..127 whose two hex digits exist, the first digit is
spriteY, the second spriteX, and the cell sprite is spriteY*16+spriteX. -/
def baseSectionCells (mapData : List (List Char)) : List MapCell :=
  (List.range 32).flatMap (fun (y : Nat) =>
    if hy : y < mapData.length then
      let line := mapData.get ⟨y, hy⟩
      (List.range 128).filterMap (fun (x : Nat) =>
        if x * 2 + 1 < line.length then
          let spriteY := parseHexChar (line.getD (x * 2) ' ')
          let spriteX := parseHexChar (line.getD (x * 2 + 1) ' ')
          some ⟨(x : Int), (y : Int), spriteY * 16 + spriteX⟩
        else none)
    else [])

/-- Dual-purpose band cells of generateMapJSON (the section-3 and
section-4 loops, which differ only in the base row 32 versus 48): for
each band row y and tile column x below half the line length, the first
hex digit is spriteX, the second spriteY, the sprite ID is
spriteY*16+spriteX; even rows land on the left half (column x, row
baseRow + y/2), odd rows on the right half (column 64+x, row
baseRow + (y-1)/2). -/
def dualSectionCells (sectionData : List (List Char)) (baseRow : Nat) : List MapCell :=
  (List.range sectionData.length).flatMap (fun (y : Nat) =>
    let line := sectionData.getD y []
    (List.range (line.length / 2)).map (fun (x : Nat) =>
      let spriteX := parseHexChar (line.getD (x * 2) ' ')
      let spriteY := parseHexChar (line.getD (x * 2 + 1) ' ')
      let spriteID := spriteY * 16 + spriteX
      if y % 2 = 0 then
        ⟨(x : Int), ((baseRow + y / 2 : Nat) : Int), spriteID⟩
      else
        ⟨((64 + x : Nat) : Int), ((baseRow + (y - 1) / 2 : Nat) : Int), spriteID⟩))

/-- The band-3 slice gfxData[64:96] and band-4 slice gfxData[96:128] of
main and generateMapJSON; drop/take realizes the end clamp, and an empty
result when the start row is past the data realizes the start guard. -/
def bandSlice (gfxData : List (List Char)) (startRow : Nat) : List (List Char) :=
  (gfxData.drop startRow).take 32

/-- generateMapJSON: the map JSON document with the base section cells
followed by the section-3 cells (base row 32) when useSection3 and the
section-4 cells (base row 48) when useSection4. -/
def generateMapJSON (mapData gfxData : List (List Char)) (useSection3 useSection4 : Bool) :
    MapSheet :=
  { width := 128
    height := mapJSONHeight useSection3 useSection4
    cells :=
      baseSectionCells mapData
        ++ (if useSection3 then dualSectionCells (bandSlice gfxData 64) 32 else [])
        ++ (if useSection4 then dualSectionCells (bandSlice gfxData 96) 48 else []) }

/-- A sprite-ID interval of the availableSprites metadata, mirroring
struct SpriteRange (the End field is called stop here because end is a
reserved word; the constant Used and Description fields are omitted). -/
structure SpriteRange where
  start : Nat
  stop : Nat
  deriving DecidableEq

/-- The ranges list assembled by generateSpriteSheetJSON: base range
0..127 always, 128..191 appended when section 3 is not selected,
192..255 appended when section 4 is not selected. -/
def availableRanges (useSection3 useSection4 : Bool) : List SpriteRange :=
  [⟨0, 127⟩]
    ++ (if !useSection3 then [⟨128, 191⟩] else [])
    ++ (if !useSection4 then [⟨192, 255⟩] else [])

/-- The availableSprites Total of generateSpriteSheetJSON: 128 for the
base range, plus 64 for each band range that is appended. -/
def availableTotal (useSection3 useSection4 : Bool) : Nat :=
  128 + (if !useSection3 then 64 else 0) + (if !useSection4 then 64 else 0)

/-- Sprite-ID membership in some emitted range. -/
def idCovered (useSection3 useSection4 : Bool) (id : Nat) : Bool :=
  (availableRanges useSection3 useSection4).any (fun r => r.start ≤ id && id ≤ r.stop)

/-- The ID interval of the active dual-purpose bands, written from the
spec words: band 3 owns 128..191 when active, band 4 owns 192..255 when
active. -/
def idExcludedByActiveBand (useSection3 useSection4 : Bool) (id : Nat) : Prop :=
  (useSection3 = true ∧ 128 ≤ id ∧ id ≤ 191) ∨ (useSection4 = true ∧ 192 ≤ id ∧ id ≤ 255)

instance (s3 s4 : Bool) (id : Nat) : Decidable (idExcludedByActiveBand s3 s4 id) := by
  unfold idExcludedByActiveBand
  infer_instance

/-- The 8x8 pixel grid of one sprite as built by generateSpriteSheetJSON:
each entry starts at 0 and is overwritten with the decoded hex digit at
gfxData[y*8+i][x*8+j] when that row and column exist. -/
def spritePixels (gfxData : List (List Char)) (x y : Nat) : List (List Int) :=
  (List.range 8).map (fun i =>
    (List.range 8).map (fun j =>
      if hi : y * 8 + i < gfxData.length then
        let line := gfxData.get ⟨y * 8 + i, hi⟩
        if x * 8 + j < line.length then parseHexChar (line.getD (x * 8 + j) ' ')
        else 0
      else 0))

/-- The used check of generateSpriteSheetJSON: true as soon as any pixel
of the grid differs from 0 (the loop with the early break). -/
def spriteUsed (pixels : List (List Int)) : Bool :=
  pixels.any (fun row => row.any (fun pixel => pixel != 0))

/-- getFlagArray converts a flag byte into its 8 booleans (bit i set). -/
def getFlagArray (flagByte : Int) : List Bool :=
  (List.range 8).map (fun i => (flagByte.toNat >>> i) % 2 = 1)

/-- One sprite record of the spritesheet JSON, mirroring struct Sprite
(the constant Width and Height fields and the filename are omitted; the
flag bitfield keeps its value from flagData). -/
structure Sprite where
  id : Nat
  x : Nat
  y : Nat
  pixels : List (List Int)
  flagBitfield : Int
  used : Bool
  deriving DecidableEq

/-- The sprites list of generateSpriteSheetJSON: IDs 0..255, skipping an
ID inside an active dual-purpose band; x = id % 16, y = id / 16, the
pixel grid from spritePixels, used from spriteUsed. -/
def generateSpriteSheetSprites (gfxData : List (List Char)) (flagData : List Int)
    (useSection3 useSection4 : Bool) : List Sprite :=
  (List.range 256).filterMap (fun spriteID =>
    if (128 ≤ spriteID ∧ spriteID < 192 ∧ useSection3 = true)
        ∨ (192 ≤ spriteID ∧ useSection4 = true) then none
    else
      let x := spriteID % 16
      let y := spriteID / 16
      let pixels := spritePixels gfxData x y
      some ⟨spriteID, x, y, pixels, flagData.getD spriteID 0, spriteUsed pixels⟩)

/-- A Go image.RGBA value: bounds (zero-origin width and height) plus a
total pixel function. Set never writes outside the bounds and newRGBA
starts all zero, so the stored function agrees with Go At everywhere,
also outside the bounds where At yields the zero RGBA value. -/
structure Img where
  width : Nat
  height : Nat
  pix : Int → Int → RGBA

/-- image.NewRGBA(image.Rect(0, 0, w, h)): an all-zero pixel buffer. -/
def newRGBA (w h : Nat) : Img :=
  ⟨w, h, fun _ _ => ⟨0, 0, 0, 0⟩⟩

/-- Go (*image.RGBA).Set: stores the color at (x, y), a no-op when the
point lies outside the bounds. -/
def Img.set (img : Img) (x y : Int) (c : RGBA) : Img :=
  if 0 ≤ x ∧ x < (img.width : Int) ∧ 0 ≤ y ∧ y < (img.height : Int) then
    { img with pix := fun a b => if a = x ∧ b = y then c else img.pix a b }
  else img

/-- Go (*image.RGBA).At on this representation. -/
def Img.get (img : Img) (x y : Int) : RGBA := img.pix x y

/-- A pending pixel write: target x, target y, color. -/
abbrev PixWrite := Int × Int × RGBA

/-- A sequence of Set calls whose colors do not depend on the image
being written (true of every pixel loop in the source, which only ever
reads from a different image): the loop is the left fold of its write
list. -/
def applyWrites (img : Img) (ws : List PixWrite) : Img :=
  ws.foldl (fun d w => d.set w.1 w.2.1 w.2.2) img

/-- reconstructImage puts the 16x16 sprite data into an RGBA image: for
each line y and character x, the decoded palette color (palette entry 0
when the decode is invalid or out of range) is written at (x, y). -/
def reconstructImage (gfxData : List (List Char)) : Img :=
  applyWrites (newRGBA 128 128)
    ((List.range gfxData.length).flatMap (fun (y : Nat) =>
      let line := gfxData.getD y []
      (List.range line.length).map (fun (x : Nat) =>
        let colorIndex := parseHexChar (line.getD x ' ')
        ((x : Int), (y : Int),
          if 0 ≤ colorIndex ∧ colorIndex < 16 then
            pico8Palette.getD colorIndex.toNat ⟨0, 0, 0, 0⟩
          else palette0))))

/-- drawSprite copies an 8x8 region of the sprite sheet at tile
(spriteX, spriteY) onto the destination tile (dstTileX, dstTileY). -/
def drawSprite (dst src : Img) (spriteX spriteY dstTileX dstTileY : Int) : Img :=
  let srcX := spriteX * 8
  let srcY := spriteY * 8
  let dstX := dstTileX * 8
  let dstY := dstTileY * 8
  applyWrites dst
    ((List.range 8).flatMap (fun (yy : Nat) =>
      (List.range 8).map (fun (xx : Nat) =>
        (dstX + (xx : Int), dstY + (yy : Int),
          src.get (srcX + (xx : Int)) (srcY + (yy : Int))))))

/-- drawBlackTile fills an 8x8 destination tile with palette entry 0. -/
def drawBlackTile (dst : Img) (tileX tileY : Int) : Img :=
  applyWrites dst
    ((List.range 8).flatMap (fun (yy : Nat) =>
      (List.range 8).map (fun (xx : Nat) =>
        (tileX * 8 + (xx : Int), tileY * 8 + (yy : Int), palette0))))

/-- Body of the base-map loop of renderMap at line row y, tile column x:
first digit spriteY, second spriteX; drawn only when not (0,0). -/
def baseCellDraw (sheet : Img) (line : List Char) (y x : Nat) (img : Img) : Img :=
  let spriteY := parseHexChar (line.getD (x * 2) ' ')
  let spriteX := parseHexChar (line.getD (x * 2 + 1) ' ')
  if spriteX ≠ 0 ∨ spriteY ≠ 0 then
    drawSprite img sheet spriteX spriteY (x : Int) (y : Int)
  else img

/-- Body of the dual-purpose section-1 (band 3) loop of renderMap: first
digit spriteX, second spriteY; even rows draw at (x, 32 + y/2) with an
explicit black tile for (0,0), odd rows draw at (64 + x, 32 + (y-1)/2)
and skip (0,0). -/
def sec3CellDraw (sheet : Img) (line : List Char) (y x : Nat) (img : Img) : Img :=
  let spriteX := parseHexChar (line.getD (x * 2) ' ')
  let spriteY := parseHexChar (line.getD (x * 2 + 1) ' ')
  if y % 2 = 0 then
    if spriteX ≠ 0 ∨ spriteY ≠ 0 then
      drawSprite img sheet spriteX spriteY (x : Int) ((32 + y / 2 : Nat) : Int)
    else drawBlackTile img (x : Int) ((32 + y / 2 : Nat) : Int)
  else
    if spriteX ≠ 0 ∨ spriteY ≠ 0 then
      drawSprite img sheet spriteX spriteY ((64 + x : Nat) : Int) ((32 + (y - 1) / 2 : Nat) : Int)
    else img

/-- Body of the dual-purpose section-2 (band 4) loop of renderMap: like
band 3 but at base row 48 and with no black-tile branch, so (0,0) is
skipped on both parities. -/
def sec4CellDraw (sheet : Img) (line : List Char) (y x : Nat) (img : Img) : Img :=
  let spriteX := parseHexChar (line.getD (x * 2) ' ')
  let spriteY := parseHexChar (line.getD (x * 2 + 1) ' ')
  if y % 2 = 0 then
    if spriteX ≠ 0 ∨ spriteY ≠ 0 then
      drawSprite img sheet spriteX spriteY (x : Int) ((48 + y / 2 : Nat) : Int)
    else img
  else
    if spriteX ≠ 0 ∨ spriteY ≠ 0 then
      drawSprite img sheet spriteX spriteY ((64 + x : Nat) : Int) ((48 + (y - 1) / 2 : Nat) : Int)
    else img

/-- renderMap: black background fill, then the base map tiles, then the
band-3 cells, then the band-4 cells (a nil section is an empty list, so
its loop runs zero times exactly as in the source). -/
def renderMap (mapData dps1 dps2 : List (List Char)) (spriteSheet : Img)
    (mapWidth mapHeight : Nat) : Img :=
  let mapImage := newRGBA (mapWidth * 8) (mapHeight * 8)
  let mapImage := applyWrites mapImage
    ((List.range (mapHeight * 8)).flatMap (fun (y : Nat) =>
      (List.range (mapWidth * 8)).map (fun (x : Nat) => ((x : Int), (y : Int), palette0))))
  let mapImage := (List.range mapData.length).foldl (fun img y =>
      let line := mapData.getD y []
      (List.range (line.length / 2)).foldl (fun img x => baseCellDraw spriteSheet line y x img) img)
    mapImage
  let mapImage := (List.range dps1.length).foldl (fun img y =>
      let line := dps1.getD y []
      (List.range (line.length / 2)).foldl (fun img x => sec3CellDraw spriteSheet line y x img) img)
    mapImage
  (List.range dps2.length).foldl (fun img y =>
      let line := dps2.getD y []
      (List.range (line.length / 2)).foldl (fun img x => sec4CellDraw spriteSheet line y x img) img)
    mapImage

/-- combineSectionsIntoSpriteSheet: a fresh 128 x (32*4) image, the first
numSections 128x32 section images copied top-to-bottom, and every
remaining band slot up to 4 filled with the fully transparent color.
The section images come back from the PNG codec in the source; here they
are passed in directly, the codec being out of scope. -/
def combineSectionsIntoSpriteSheet (sections : Nat → Img) (numSections : Nat) : Img :=
  let combined := newRGBA 128 (32 * 4)
  let combined := applyWrites combined
    ((List.range numSections).flatMap (fun (i : Nat) =>
      (List.range 32).flatMap (fun (y : Nat) =>
        (List.range 128).map (fun (x : Nat) =>
          ((x : Int), ((i * 32 + y : Nat) : Int), (sections i).get (x : Int) (y : Int))))))
  applyWrites combined
    ((List.range' numSections (4 - numSections)).flatMap (fun (i : Nat) =>
      (List.range 32).flatMap (fun (y : Nat) =>
        (List.range 128).map (fun (x : Nat) =>
          ((x : Int), ((i * 32 + y : Nat) : Int), (⟨0, 0, 0, 0⟩ : RGBA))))))

/-- Section count of the canonical variant of main: 2 base sections,
replaced by 4 when neither band option is set, else 3 when section 3 is
not set, else 3 when section 4 is not set. -/
def numSectionsCanonical (useSection3 useSection4 : Bool) : Nat :=
  if !useSection3 && !useSection4 then 4
  else if !useSection3 then 3
  else if !useSection4 then 3
  else 2

/-- Section count of the historical variant of main: 4, replaced by 2
when either band option is set. -/
def numSectionsHistorical (useSection3 useSection4 : Bool) : Nat :=
  if useSection3 || useSection4 then 2 else 4

/-! Helper lemmas about the pixel-write machinery. -/

theorem Img.set_width (img : Img) (x y : Int) (c : RGBA) :
    (img.set x y c).width = img.width := by
  unfold Img.set
  split <;> rfl

theorem Img.set_height (img : Img) (x y : Int) (c : RGBA) :
    (img.set x y c).height = img.height := by
  unfold Img.set
  split <;> rfl

theorem Img.set_pix_of_ne (img : Img) (x y : Int) (c : RGBA) (a b : Int)
    (h : ¬(a = x ∧ b = y)) : (img.set x y c).pix a b = img.pix a b := by
  unfold Img.set
  split
  · simp [h]
  · rfl

theorem Img.set_pix_self (img : Img) (x y : Int) (c : RGBA)
    (hx0 : 0 ≤ x) (hx : x < (img.width : Int)) (hy0 : 0 ≤ y) (hy : y < (img.height : Int)) :
    (img.set x y c).pix x y = c := by
  unfold Img.set
  rw [if_pos ⟨hx0, hx, hy0, hy⟩]
  simp

theorem applyWrites_cons (img : Img) (w : PixWrite) (ws : List PixWrite) :
    applyWrites img (w :: ws) = applyWrites (img.set w.1 w.2.1 w.2.2) ws := rfl

theorem applyWrites_width (img : Img) (ws : List PixWrite) :
    (applyWrites img ws).width = img.width := by
  induction ws generalizing img with
  | nil => rfl
  | cons w ws ih => rw [applyWrites_cons, ih, Img.set_width]

theorem applyWrites_height (img : Img) (ws : List PixWrite) :
    (applyWrites img ws).height = img.height := by
  induction ws generalizing img with
  | nil => rfl
  | cons w ws ih => rw [applyWrites_cons, ih, Img.set_height]

theorem applyWrites_pix_untouched (ws : List PixWrite) (img : Img) (X Y : Int)
    (h : ∀ w ∈ ws, ¬(w.1 = X ∧ w.2.1 = Y)) :
    (applyWrites img ws).pix X Y = img.pix X Y := by
  induction ws generalizing img with
  | nil => rfl
  | cons w ws ih =>
    rw [applyWrites_cons, ih _ (fun u hu => h u (List.mem_cons_of_mem _ hu))]
    exact Img.set_pix_of_ne _ _ _ _ _ _
      (fun hc => h w (List.mem_cons_self _ _) ⟨hc.1.symm, hc.2.symm⟩)

theorem applyWrites_pix_eq_of_all (ws : List PixWrite) (img : Img) (X Y : Int) (c : RGBA)
    (hall : ∀ w ∈ ws, w.1 = X ∧ w.2.1 = Y → w.2.2 = c)
    (hex : ∃ w ∈ ws, w.1 = X ∧ w.2.1 = Y)
    (hX0 : 0 ≤ X) (hX : X < (img.width : Int)) (hY0 : 0 ≤ Y) (hY : Y < (img.height : Int)) :
    (applyWrites img ws).pix X Y = c := by
  induction ws generalizing img with
  | nil => simp at hex
  | cons w ws ih =>
    rw [applyWrites_cons]
    by_cases hws : ∃ u ∈ ws, u.1 = X ∧ u.2.1 = Y
    · refine ih (img.set w.1 w.2.1 w.2.2)
        (fun u hu => hall u (List.mem_cons_of_mem _ hu)) hws ?_ ?_
      · rw [Img.set_width]; exact hX
      · rw [Img.set_height]; exact hY
    · have hw : w.1 = X ∧ w.2.1 = Y := by
        rcases hex with ⟨u, hu, hm⟩
        rcases List.mem_cons.mp hu with h1 | h1
        · rw [← h1]; exact hm
        · exact absurd ⟨u, h1, hm⟩ hws
      rw [applyWrites_pix_untouched ws _ X Y (fun u hu hm => hws ⟨u, hu, hm⟩)]
      rw [hw.1, hw.2, Img.set_pix_self img X Y _ hX0 hX hY0 hY]
      exact hall w (List.mem_cons_self _ _) hw

/-- The 8x8 region written by drawBlackTile holds palette entry 0 on
every in-bounds pixel. -/
theorem drawBlackTile_pix (img : Img) (tX tY X Y : Int)
    (hX0 : 0 ≤ X) (hX : X < (img.width : Int)) (hY0 : 0 ≤ Y) (hY : Y < (img.height : Int))
    (hreg : ∃ xx : Nat, xx < 8 ∧ ∃ yy : Nat, yy < 8 ∧ X = tX * 8 + xx ∧ Y = tY * 8 + yy) :
    (drawBlackTile img tX tY).pix X Y = palette0 := by
  unfold drawBlackTile
  obtain ⟨xx, hxx, yy, hyy, hXe, hYe⟩ := hreg
  refine applyWrites_pix_eq_of_all _ _ _ _ _ ?_ ?_ hX0 hX hY0 hY
  · intro w hw _
    obtain ⟨b, _, hw2⟩ := List.mem_flatMap.mp hw
    obtain ⟨a, _, hwe⟩ := List.mem_map.mp hw2
    rw [← hwe]
  · refine ⟨(tX * 8 + (xx : Int), tY * 8 + (yy : Int), palette0), ?_,
      by rw [hXe, hYe]; exact ⟨rfl, rfl⟩⟩
    refine List.mem_flatMap.mpr ⟨yy, List.mem_range.mpr hyy, ?_⟩
    exact List.mem_map.mpr ⟨xx, List.mem_range.mpr hxx, rfl⟩

/-- Pointwise content of reconstructImage on positions covered by the
graphics data: the decoded palette color, palette entry 0 when the
decode is invalid or out of range. -/
theorem reconstructImage_pix (gfxData : List (List Char)) (x y : Nat)
    (hx128 : x < 128) (hy128 : y < 128)
    (hy : y < gfxData.length) (hx : x < (gfxData.getD y []).length) :
    (reconstructImage gfxData).pix (x : Int) (y : Int) =
      (if 0 ≤ parseHexChar ((gfxData.getD y []).getD x ' ')
          ∧ parseHexChar ((gfxData.getD y []).getD x ' ') < 16 then
        pico8Palette.getD (parseHexChar ((gfxData.getD y []).getD x ' ')).toNat ⟨0, 0, 0, 0⟩
      else palette0) := by
  unfold reconstructImage
  refine applyWrites_pix_eq_of_all _ _ _ _ _ ?_ ?_ (by positivity) ?_ (by positivity) ?_
  · intro w hw hmatch
    obtain ⟨b, hb, hw2⟩ := List.mem_flatMap.mp hw
    obtain ⟨a, ha, hwe⟩ := List.mem_map.mp hw2
    rw [← hwe] at hmatch ⊢
    have ha1 : ((a : Int)) = (x : Int) := hmatch.1
    have hb1 : ((b : Int)) = (y : Int) := hmatch.2
    have hax : a = x := by exact_mod_cast ha1
    have hby : b = y := by exact_mod_cast hb1
    show (if 0 ≤ parseHexChar ((gfxData.getD b []).getD a ' ')
          ∧ parseHexChar ((gfxData.getD b []).getD a ' ') < 16 then
        pico8Palette.getD (parseHexChar ((gfxData.getD b []).getD a ' ')).toNat ⟨0, 0, 0, 0⟩
      else palette0) = _
    rw [hax, hby]
  · refine ⟨((x : Int), (y : Int),
      if 0 ≤ parseHexChar ((gfxData.getD y []).getD x ' ')
          ∧ parseHexChar ((gfxData.getD y []).getD x ' ') < 16 then
        pico8Palette.getD (parseHexChar ((gfxData.getD y []).getD x ' ')).toNat ⟨0, 0, 0, 0⟩
      else palette0), ?_, ⟨rfl, rfl⟩⟩
    refine List.mem_flatMap.mpr ⟨y, List.mem_range.mpr hy, ?_⟩
    exact List.mem_map.mpr ⟨x, List.mem_range.mpr hx, rfl⟩
  · show (x : Int) < ((newRGBA 128 128).width : Int)
    exact_mod_cast hx128
  · show (y : Int) < ((newRGBA 128 128).height : Int)
    exact_mod_cast hy128

theorem getD_eq_get {α : Type} (l : List α) (d : α) (i : Nat) (hi : i < l.length) :
    l.getD i d = l.get ⟨i, hi⟩ := by
  rw [List.getD_eq_getElem l d hi, List.get_eq_getElem]

theorem getD_map_range {α : Type} (f : Nat → α) (d : α) (n i : Nat) (hi : i < n) :
    ((List.range n).map f).getD i d = f i := by
  have hlen : i < ((List.range n).map f).length := by
    rw [List.length_map, List.length_range]
    exact hi
  rw [List.getD_eq_getElem _ d hlen, List.getElem_map, List.getElem_range]

/-- Every in-range position of a dual-purpose section yields its cell in
the dualSectionCells list. -/
theorem dualSectionCells_mem (sectionData : List (List Char)) (baseRow : Nat) (y x : Nat)
    (hy : y < sectionData.length) (hx : x < (sectionData.getD y []).length / 2) :
    (if y % 2 = 0 then
        (⟨(x : Int), ((baseRow + y / 2 : Nat) : Int),
          parseHexChar ((sectionData.getD y []).getD (x * 2 + 1) ' ') * 16
            + parseHexChar ((sectionData.getD y []).getD (x * 2) ' ')⟩ : MapCell)
      else
        ⟨((64 + x : Nat) : Int), ((baseRow + (y - 1) / 2 : Nat) : Int),
          parseHexChar ((sectionData.getD y []).getD (x * 2 + 1) ' ') * 16
            + parseHexChar ((sectionData.getD y []).getD (x * 2) ' ')⟩)
      ∈ dualSectionCells sectionData baseRow := by
  unfold dualSectionCells
  refine List.mem_flatMap.mpr ⟨y, List.mem_range.mpr hy, ?_⟩
  exact List.mem_map.mpr ⟨x, List.mem_range.mpr hx, rfl⟩

/-- Every position of the base tilemap with both hex digits present
yields its cell in the baseSectionCells list. -/
theorem baseSectionCells_mem (mapData : List (List Char)) (y x : Nat)
    (hy32 : y < 32) (hy : y < mapData.length) (hx : x < 128)
    (hp : x * 2 + 1 < (mapData.getD y []).length) :
    (⟨(x : Int), (y : Int),
      parseHexChar ((mapData.getD y []).getD (x * 2) ' ') * 16
        + parseHexChar ((mapData.getD y []).getD (x * 2 + 1) ' ')⟩ : MapCell)
      ∈ baseSectionCells mapData := by
  rw [getD_eq_get mapData [] y hy] at hp ⊢
  unfold baseSectionCells
  refine List.mem_flatMap.mpr ⟨y, List.mem_range.mpr hy32, ?_⟩
  rw [dif_pos hy]
  refine List.mem_filterMap.mpr ⟨x, List.mem_range.mpr hx, ?_⟩
  rw [if_pos hp]

/-! Claim theorems. -/

/-- C1: for every active dual-purpose band (band 3 at start row 64 and
base row 32 when useSection3, band 4 at start row 96 and base row 48
when useSection4) and every row y and tile column x of the extracted
band lines, the two hex digits at x*2 and x*2+1 decode as
(tileCol, tileRow) with tileID = tileRow*16 + tileCol; an even band row
produces the cell at column x, row baseRow + y/2 (left half), an odd one
the cell at column 64+x, row baseRow + (y-1)/2 (right half). -/
theorem dual_band_row_mapping (mapData gfxData : List (List Char)) (s3 s4 : Bool)
    (startRow baseRow : Nat)
    (hband : (s3 = true ∧ startRow = 64 ∧ baseRow = 32)
      ∨ (s4 = true ∧ startRow = 96 ∧ baseRow = 48))
    (y x : Nat) (hy : y < (bandSlice gfxData startRow).length)
    (hx : x < ((bandSlice gfxData startRow).getD y []).length / 2) :
    (if y % 2 = 0 then
        (⟨(x : Int), ((baseRow + y / 2 : Nat) : Int),
          parseHexChar (((bandSlice gfxData startRow).getD y []).getD (x * 2 + 1) ' ') * 16
            + parseHexChar (((bandSlice gfxData startRow).getD y []).getD (x * 2) ' ')⟩ : MapCell)
      else
        ⟨((64 + x : Nat) : Int), ((baseRow + (y - 1) / 2 : Nat) : Int),
          parseHexChar (((bandSlice gfxData startRow).getD y []).getD (x * 2 + 1) ' ') * 16
            + parseHexChar (((bandSlice gfxData startRow).getD y []).getD (x * 2) ' ')⟩)
      ∈ (generateMapJSON mapData gfxData s3 s4).cells := by
  have hmem := dualSectionCells_mem (bandSlice gfxData startRow) baseRow y x hy hx
  rcases hband with ⟨hs, hst, hbr⟩ | ⟨hs, hst, hbr⟩
  · subst hs hst hbr
    have hc : (generateMapJSON mapData gfxData true s4).cells =
        baseSectionCells mapData ++ dualSectionCells (bandSlice gfxData 64) 32
          ++ (if s4 then dualSectionCells (bandSlice gfxData 96) 48 else []) := by
      simp [generateMapJSON]
    rw [hc]
    exact List.mem_append.mpr (Or.inl (List.mem_append.mpr (Or.inr hmem)))
  · subst hs hst hbr
    have hc : (generateMapJSON mapData gfxData s3 true).cells =
        baseSectionCells mapData
          ++ (if s3 then dualSectionCells (bandSlice gfxData 64) 32 else [])
          ++ dualSectionCells (bandSlice gfxData 96) 48 := by
      simp [generateMapJSON]
    rw [hc]
    exact List.mem_append.mpr (Or.inr hmem)

/-- Witness for C1: with band 3 active and graphics row 64 equal to the
two characters 1 and 2, the cell at column 0, row 32 carries tile ID
2*16 + 1 = 33. -/
theorem dual_band_row_mapping_witness :
    (⟨0, 32, 33⟩ : MapCell) ∈ (generateMapJSON []
        (List.replicate 64 ([] : List Char) ++ [['1', '2']]) true false).cells := by
  have h := dual_band_row_mapping [] (List.replicate 64 ([] : List Char) ++ [['1', '2']])
      true false 64 32 (Or.inl ⟨rfl, rfl, rfl⟩) 0 0 (by decide) (by decide)
  simpa [parseHexChar] using h

/-- C2: the base tilemap decode puts the first hex digit in the sprite
row and the second in the sprite column (the inverse of the dual-purpose
ordering) and emits the cell at (x, y) with sprite = row*16 + column. -/
theorem base_section_cell_emission (mapData gfxData : List (List Char)) (s3 s4 : Bool)
    (y x : Nat) (hy32 : y < 32) (hy : y < mapData.length) (hx : x < 128)
    (hp : x * 2 + 1 < (mapData.getD y []).length) :
    (⟨(x : Int), (y : Int),
      parseHexChar ((mapData.getD y []).getD (x * 2) ' ') * 16
        + parseHexChar ((mapData.getD y []).getD (x * 2 + 1) ' ')⟩ : MapCell)
      ∈ (generateMapJSON mapData gfxData s3 s4).cells := by
  have hmem := baseSectionCells_mem mapData y x hy32 hy hx hp
  show _ ∈ baseSectionCells mapData ++ _ ++ _
  exact List.mem_append.mpr (Or.inl (List.mem_append.mpr (Or.inl hmem)))

/-- Witness for C2: the tile pair of characters 1 and 2 at map position
(0, 0) produces the cell with sprite 1*16 + 2 = 18. -/
theorem base_section_cell_emission_witness :
    (⟨0, 0, 18⟩ : MapCell) ∈ (generateMapJSON [['1', '2']] [] false false).cells := by
  have h := base_section_cell_emission [['1', '2']] [] false false 0 0
    (by decide) (by decide) (by decide) (by decide)
  simpa [parseHexChar] using h

/-- C3: for every combination of the two band options, the union of the
emitted AvailableRange intervals equals 0..255 minus the ID intervals of
the active dual-purpose bands, the ranges do not overlap, the reported
total equals the number of covered IDs, and with only band 3 active the
range list is [(0,127), (192,255)] with total 192. -/
theorem available_ranges_partition (s3 s4 : Bool) :
    (∀ id : Fin 256, idCovered s3 s4 id.val = true ↔ ¬ idExcludedByActiveBand s3 s4 id.val)
    ∧ (availableRanges s3 s4).Pairwise (fun r u => r.stop < u.start ∨ u.stop < r.start)
    ∧ availableTotal s3 s4 =
        ((List.range 256).filter (fun id => idCovered s3 s4 id)).length
    ∧ (availableRanges true false = [⟨0, 127⟩, ⟨192, 255⟩] ∧ availableTotal true false = 192) := by
  cases s3 <;> cases s4 <;> (set_option maxRecDepth 8192 in decide)

/-- Witness for C3: sprite 200 is covered when only band 3 is active, and
is indeed outside every active band interval there. -/
theorem available_ranges_partition_witness :
    idCovered true false 200 = true ∧ ¬ idExcludedByActiveBand true false 200 :=
  ⟨((available_ranges_partition true false).1 ⟨200, by decide⟩).mpr (by decide), by decide⟩

/-- C4 counterexample: with band 4 active alone (exactly one active
band), the map height is 64, not the 48 the claim predicts. -/
theorem map_height_single_band_cex :
    (generateMapJSON [] [] false true).height = 64
    ∧ (generateMapJSON [] [] false true).height ≠ 48 := by
  exact ⟨rfl, by decide⟩

/-- C4 amended: the map descriptor width is always 128; the height is 64
whenever band 4 is active (regardless of band 3), 48 when only band 3 is
active, and 32 when neither is active. -/
theorem map_dimensions_amended (mapData gfxData : List (List Char)) (s3 s4 : Bool) :
    (generateMapJSON mapData gfxData s3 s4).width = 128
    ∧ (generateMapJSON mapData gfxData s3 s4).height =
        (if s4 then 64 else if s3 then 48 else 32) := by
  cases s3 <;> cases s4 <;> exact ⟨rfl, rfl⟩

/-- C9: the historical section-count rule and the canonical one disagree
exactly when exactly one band option is active; there the historical
rule yields 2 and the canonical rule yields 3. -/
theorem section_count_variants_disagree (s3 s4 : Bool) :
    (numSectionsHistorical s3 s4 ≠ numSectionsCanonical s3 s4 ↔ s3 ≠ s4)
    ∧ (s3 ≠ s4 → numSectionsHistorical s3 s4 = 2 ∧ numSectionsCanonical s3 s4 = 3) := by
  cases s3 <;> cases s4 <;> decide

/-- Witness for C9 at the concrete point with only band 3 active. -/
theorem section_count_variants_disagree_witness :
    numSectionsHistorical true false = 2 ∧ numSectionsCanonical true false = 3 :=
  (section_count_variants_disagree true false).2 (by decide)

/-- A position of the atlas raster not covered by the graphics data (row
past the data or column past its line) keeps the initial all-zero pixel
of the fresh image. -/
theorem reconstructImage_pix_missing (gfxData : List (List Char)) (x y : Nat)
    (h : gfxData.length ≤ y ∨ (gfxData.getD y []).length ≤ x) :
    (reconstructImage gfxData).pix (x : Int) (y : Int) = ⟨0, 0, 0, 0⟩ := by
  unfold reconstructImage
  rw [applyWrites_pix_untouched]
  · rfl
  · intro w hw
    obtain ⟨b, hb, hw2⟩ := List.mem_flatMap.mp hw
    obtain ⟨a, ha, hwe⟩ := List.mem_map.mp hw2
    have hb2 := List.mem_range.mp hb
    have ha2 := List.mem_range.mp ha
    rw [← hwe]
    rintro ⟨h1, h2⟩
    have hax : a = x := by exact_mod_cast (show ((a : Int)) = (x : Int) from h1)
    have hby : b = y := by exact_mod_cast (show ((b : Int)) = (y : Int) from h2)
    subst hax hby
    omega

/-- Pointwise content of a sprite pixel grid: the decoded hex digit when
the graphics row and column are present, the default 0 otherwise. -/
theorem spritePixels_entry (gfxData : List (List Char)) (x y i j : Nat)
    (hi : i < 8) (hj : j < 8) :
    ((spritePixels gfxData x y).getD i []).getD j 0 =
      (if y * 8 + i < gfxData.length
          ∧ x * 8 + j < (gfxData.getD (y * 8 + i) []).length then
        parseHexChar ((gfxData.getD (y * 8 + i) []).getD (x * 8 + j) ' ')
      else 0) := by
  unfold spritePixels
  rw [getD_map_range _ _ _ _ hi, getD_map_range _ _ _ _ hj]
  by_cases h1 : y * 8 + i < gfxData.length
  · rw [dif_pos h1, getD_eq_get gfxData [] _ h1]
    by_cases h2 : x * 8 + j < (gfxData.get ⟨y * 8 + i, h1⟩).length
    · rw [if_pos h2, if_pos ⟨h1, h2⟩]
    · rw [if_neg h2, if_neg (fun hc => h2 hc.2)]
  · rw [dif_neg h1, if_neg (fun hc => h1 hc.1)]

/-- A base tilemap position whose second hex digit is missing (the line
is too short) emits no cell at all, whatever sprite value one asks for. -/
theorem baseSectionCells_missing_none (mapData : List (List Char)) (y x : Nat) (s : Int)
    (h : (mapData.getD y []).length ≤ x * 2 + 1) :
    (⟨(x : Int), (y : Int), s⟩ : MapCell) ∉ baseSectionCells mapData := by
  intro hmem
  unfold baseSectionCells at hmem
  obtain ⟨b, hb, hm2⟩ := List.mem_flatMap.mp hmem
  by_cases hbl : b < mapData.length
  · rw [dif_pos hbl] at hm2
    obtain ⟨a, ha, hfa⟩ := List.mem_filterMap.mp hm2
    by_cases hp : a * 2 + 1 < (mapData.get ⟨b, hbl⟩).length
    · rw [if_pos hp] at hfa
      have hcell := Option.some_inj.mp hfa
      have hax : ((a : Int)) = (x : Int) := congrArg MapCell.x hcell
      have hby : ((b : Int)) = (y : Int) := congrArg MapCell.y hcell
      have ha2 : a = x := by exact_mod_cast hax
      have hb2 : b = y := by exact_mod_cast hby
      subst ha2 hb2
      rw [← getD_eq_get mapData [] b hbl] at hp
      omega
    · rw [if_neg hp] at hfa
      exact absurd hfa (by simp)
  · rw [dif_neg hbl] at hm2
    exact absurd hm2 (by simp)

/-- C5 counterexample: the claimed decode-to-blank fails on each kind of
defect. A base tilemap line of two non-hex characters produces the cell
sprite ID -17 (the -1 sentinel flowing through the sprite arithmetic),
not tile coordinate (0,0); a short line of one character produces no
cell at all, not a (0,0) cell; the sprite pixel grid stores -1 itself,
not pixel index 0, for a non-hex character; and a raster position with
no data stays the transparent zero pixel, which is not the palette-0
color. -/
theorem malformed_map_tile_cex :
    ((generateMapJSON [['g', 'g']] [] false false).cells = [⟨0, 0, -17⟩]
      ∧ (⟨0, 0, -17⟩ : MapCell).sprite ≠ 0)
    ∧ (generateMapJSON [['1']] [] false false).cells = []
    ∧ (((spritePixels [['g']] 0 0).getD 0 []).getD 0 0 = -1 ∧ ((-1 : Int) ≠ 0))
    ∧ ((reconstructImage []).pix 0 0 = ⟨0, 0, 0, 0⟩
      ∧ (⟨0, 0, 0, 0⟩ : RGBA) ≠ palette0) := by
  refine ⟨⟨by decide, by decide⟩, by decide, ⟨by decide, by decide⟩, rfl, by decide⟩

/-- C5 amended: decoding never fails, but defective input does not
uniformly decode to blank. An invalid hex character decodes to the
sentinel -1: the raster renderer shows palette entry 0 for it at
positions whose data is present, the sprite pixel grids store the -1
itself, and the map decode folds it into the sprite-ID arithmetic (two
invalid digits give sprite -17, not tile coordinate (0,0)). Missing
data yields each context's default instead: the untouched transparent
zero pixel (not palette entry 0) in the raster, pixel index 0 in the
sprite grids, and no cell at all in the map. -/
theorem malformed_input_absorbed_amended :
    (∀ c : Char,
        ¬(('0' ≤ c ∧ c ≤ '9') ∨ ('a' ≤ c ∧ c ≤ 'f') ∨ ('A' ≤ c ∧ c ≤ 'F')) →
          parseHexChar c = -1)
    ∧ (∀ gfxData : List (List Char), ∀ x y : Nat,
        x < 128 → y < 128 → ∀ hy : y < gfxData.length,
        ∀ hx : x < (gfxData.getD y []).length,
        parseHexChar ((gfxData.getD y []).getD x ' ') = -1 →
        (reconstructImage gfxData).pix (x : Int) (y : Int) = palette0)
    ∧ (∀ gfxData : List (List Char), ∀ x y : Nat,
        gfxData.length ≤ y ∨ (gfxData.getD y []).length ≤ x →
        (reconstructImage gfxData).pix (x : Int) (y : Int) = ⟨0, 0, 0, 0⟩)
    ∧ (∀ gfxData : List (List Char), ∀ x y i j : Nat, i < 8 → j < 8 →
        (gfxData.length ≤ y * 8 + i ∨ (gfxData.getD (y * 8 + i) []).length ≤ x * 8 + j) →
        ((spritePixels gfxData x y).getD i []).getD j 0 = 0)
    ∧ (∀ gfxData : List (List Char), ∀ x y i j : Nat, i < 8 → j < 8 →
        y * 8 + i < gfxData.length →
        x * 8 + j < (gfxData.getD (y * 8 + i) []).length →
        ((spritePixels gfxData x y).getD i []).getD j 0
          = parseHexChar ((gfxData.getD (y * 8 + i) []).getD (x * 8 + j) ' '))
    ∧ (∀ mapData : List (List Char), ∀ y x : Nat, ∀ s : Int,
        (mapData.getD y []).length ≤ x * 2 + 1 →
        (⟨(x : Int), (y : Int), s⟩ : MapCell) ∉ baseSectionCells mapData)
    ∧ (∀ c1 c2 : Char, parseHexChar c1 = -1 → parseHexChar c2 = -1 →
        (generateMapJSON [[c1, c2]] [] false false).cells = [⟨0, 0, -17⟩]) := by
  refine ⟨?_, ?_, ?_, ?_, ?_, ?_, ?_⟩
  · intro c h
    unfold parseHexChar
    rw [if_neg (fun hc => h (Or.inl hc)), if_neg (fun hc => h (Or.inr (Or.inl hc))),
      if_neg (fun hc => h (Or.inr (Or.inr hc)))]
  · intro gfxData x y hx128 hy128 hy hx hinv
    rw [reconstructImage_pix gfxData x y hx128 hy128 hy hx, hinv]
    norm_num
  · intro gfxData x y h
    exact reconstructImage_pix_missing gfxData x y h
  · intro gfxData x y i j hi hj h
    rw [spritePixels_entry gfxData x y i j hi hj]
    rw [if_neg]
    omega
  · intro gfxData x y i j hi hj h1 h2
    rw [spritePixels_entry gfxData x y i j hi hj]
    rw [if_pos ⟨h1, h2⟩]
  · intro mapData y x s h
    exact baseSectionCells_missing_none mapData y x s h
  · intro c1 c2 h1 h2
    have hb : (generateMapJSON [[c1, c2]] [] false false).cells =
        [⟨0, 0, parseHexChar c1 * 16 + parseHexChar c2⟩] := rfl
    rw [hb, h1, h2]
    norm_num

/-- Witness for C5: the non-hex character g at graphics position (0,0)
is rendered as palette entry 0. -/
theorem malformed_input_absorbed_witness :
    (reconstructImage [['g']]).pix 0 0 = palette0 := by
  have h := malformed_input_absorbed_amended.2.1 [['g']] 0 0 (by decide) (by decide)
    (by decide) (by decide) (by decide)
  simpa using h

/-- C6: with a decoded tile coordinate of (0,0), a band-3 even row cell
is rendered as an explicit blank tile (the 8x8 destination region is
overwritten with palette entry 0), while a band-3 odd row cell and every
band-4 cell are skipped entirely, leaving the image unchanged. -/
theorem zero_tile_render_policy (sheet img : Img) (line : List Char) (y x : Nat)
    (h0 : parseHexChar (line.getD (x * 2) ' ') = 0)
    (h1 : parseHexChar (line.getD (x * 2 + 1) ' ') = 0) :
    (y % 2 = 0 →
      sec3CellDraw sheet line y x img
          = drawBlackTile img (x : Int) ((32 + y / 2 : Nat) : Int)
      ∧ ∀ xx yy : Nat, xx < 8 → yy < 8 →
          (x : Int) * 8 + (xx : Int) < (img.width : Int) →
          ((32 + y / 2 : Nat) : Int) * 8 + (yy : Int) < (img.height : Int) →
          (sec3CellDraw sheet line y x img).pix
            ((x : Int) * 8 + (xx : Int)) (((32 + y / 2 : Nat) : Int) * 8 + (yy : Int))
            = palette0)
    ∧ (y % 2 ≠ 0 → sec3CellDraw sheet line y x img = img)
    ∧ sec4CellDraw sheet line y x img = img := by
  refine ⟨?_, ?_, ?_⟩
  · intro hev
    have heq : sec3CellDraw sheet line y x img
        = drawBlackTile img (x : Int) ((32 + y / 2 : Nat) : Int) := by
      simp only [sec3CellDraw]
      rw [h0, h1, if_pos hev, if_neg (by simp)]
    refine ⟨heq, ?_⟩
    intro xx yy hxx hyy hW hH
    rw [heq]
    refine drawBlackTile_pix img _ _ _ _ (by positivity) hW (by positivity) hH ?_
    exact ⟨xx, hxx, yy, hyy, rfl, rfl⟩
  · intro hodd
    simp only [sec3CellDraw]
    rw [h0, h1, if_neg hodd, if_neg (by simp)]
  · simp only [sec4CellDraw]
    by_cases hev : y % 2 = 0
    · rw [h0, h1, if_pos hev, if_neg (by simp)]
    · rw [h0, h1, if_neg hev, if_neg (by simp)]

set_option maxRecDepth 16384 in
/-- Witness for C6 at band row 0, tile column 0 of a line of two zero
characters, on a 1024 x 384 map image. -/
theorem zero_tile_render_policy_witness :
    sec3CellDraw (newRGBA 128 128) ['0', '0'] 0 0 (newRGBA 1024 384)
        = drawBlackTile (newRGBA 1024 384) 0 32
    ∧ (sec3CellDraw (newRGBA 128 128) ['0', '0'] 0 0 (newRGBA 1024 384)).pix 0 256 = palette0
    ∧ sec4CellDraw (newRGBA 128 128) ['0', '0'] 0 0 (newRGBA 1024 384) = newRGBA 1024 384 := by
  have h := zero_tile_render_policy (newRGBA 128 128) (newRGBA 1024 384) ['0', '0'] 0 0
    (by decide) (by decide)
  have he := h.1 rfl
  refine ⟨?_, ?_, h.2.2⟩
  · simpa using he.1
  · have hp := he.2 0 0 (by decide) (by decide) (by decide) (by decide)
    simpa using hp

/-- The used check over a sprite pixel grid is true exactly when some
entry of the 8x8 grid is non-zero. -/
theorem spriteUsed_spritePixels_iff (gfxData : List (List Char)) (x y : Nat) :
    spriteUsed (spritePixels gfxData x y) = true
      ↔ ∃ i, i < 8 ∧ ∃ j, j < 8 ∧
          ((spritePixels gfxData x y).getD i []).getD j 0 ≠ 0 := by
  unfold spriteUsed spritePixels
  rw [List.any_eq_true]
  constructor
  · rintro ⟨row, hrow, hany⟩
    obtain ⟨i, hi, hrowe⟩ := List.mem_map.mp hrow
    rw [List.any_eq_true] at hany
    obtain ⟨p, hp, hpne⟩ := hany
    rw [← hrowe] at hp
    obtain ⟨j, hj, hpe⟩ := List.mem_map.mp hp
    have hi8 := List.mem_range.mp hi
    have hj8 := List.mem_range.mp hj
    refine ⟨i, hi8, j, hj8, ?_⟩
    rw [getD_map_range _ _ _ _ hi8, getD_map_range _ _ _ _ hj8, hpe]
    exact bne_iff_ne.mp hpne
  · rintro ⟨i, hi8, j, hj8, hne⟩
    rw [getD_map_range _ _ _ _ hi8, getD_map_range _ _ _ _ hj8] at hne
    refine ⟨_, List.mem_map.mpr ⟨i, List.mem_range.mpr hi8, rfl⟩, ?_⟩
    rw [List.any_eq_true]
    exact ⟨_, List.mem_map.mpr ⟨j, List.mem_range.mpr hj8, rfl⟩, bne_iff_ne.mpr hne⟩

/-- C7: for every emitted sprite record, the used flag is true exactly
when some of the 64 pixel entries of its 8x8 grid is non-zero; in
particular an all-zero grid yields used = false. -/
theorem used_flag_iff_nonzero (gfxData : List (List Char)) (flagData : List Int)
    (s3 s4 : Bool) (s : Sprite)
    (hs : s ∈ generateSpriteSheetSprites gfxData flagData s3 s4) :
    (s.used = true ↔ ∃ i, i < 8 ∧ ∃ j, j < 8 ∧ (s.pixels.getD i []).getD j 0 ≠ 0)
    ∧ ((∀ i, i < 8 → ∀ j, j < 8 → (s.pixels.getD i []).getD j 0 = 0) → s.used = false) := by
  obtain ⟨id, hid, heq⟩ := List.mem_filterMap.mp hs
  by_cases hskip : (128 ≤ id ∧ id < 192 ∧ s3 = true) ∨ (192 ≤ id ∧ s4 = true)
  · rw [if_pos hskip] at heq
    exact absurd heq (by simp)
  · rw [if_neg hskip] at heq
    have hc : (⟨id, id % 16, id / 16, spritePixels gfxData (id % 16) (id / 16),
        flagData.getD id 0, spriteUsed (spritePixels gfxData (id % 16) (id / 16))⟩ : Sprite)
          = s := Option.some_inj.mp heq
    have hiff := spriteUsed_spritePixels_iff gfxData (id % 16) (id / 16)
    rw [← hc]
    refine ⟨hiff, ?_⟩
    intro hall
    by_contra hne
    have hu : spriteUsed (spritePixels gfxData (id % 16) (id / 16)) = true := by
      revert hne
      cases spriteUsed (spritePixels gfxData (id % 16) (id / 16)) <;> simp
    obtain ⟨i, hi, j, hj, hnz⟩ := hiff.mp hu
    exact hnz (hall i hi j hj)

/-- Witness for C7: with the single graphics character 1, sprite 0 is
emitted and its used flag agrees with the non-zero pixel criterion. -/
theorem used_flag_iff_nonzero_witness :
    ((Sprite.mk 0 0 0 (spritePixels [['1']] 0 0) 0
        (spriteUsed (spritePixels [['1']] 0 0))).used = true
      ↔ ∃ i, i < 8 ∧ ∃ j, j < 8 ∧
          (((Sprite.mk 0 0 0 (spritePixels [['1']] 0 0) 0
            (spriteUsed (spritePixels [['1']] 0 0))).pixels.getD i []).getD j 0 ≠ 0)) := by
  have h := used_flag_iff_nonzero [['1']] [] false false
    (Sprite.mk 0 0 0 (spritePixels [['1']] 0 0) 0 (spriteUsed (spritePixels [['1']] 0 0)))
    (List.mem_filterMap.mpr ⟨0, List.mem_range.mpr (by decide), rfl⟩)
  exact h.1

/-- Pointwise content of the combined sheet for any section count up to
4: geometry 128x128, the first n bands copied from the section images,
every remaining pixel fully transparent. -/
theorem combineSections_pix (sections : Nat → Img) (n : Nat) (hn : n ≤ 4) :
    (combineSectionsIntoSpriteSheet sections n).width = 128
    ∧ (combineSectionsIntoSpriteSheet sections n).height = 128
    ∧ (∀ x y : Nat, x < 128 → y < 32 * n →
        (combineSectionsIntoSpriteSheet sections n).pix (x : Int) (y : Int)
          = (sections (y / 32)).get (x : Int) ((y % 32 : Nat) : Int))
    ∧ (∀ x y : Nat, x < 128 → 32 * n ≤ y → y < 128 →
        (combineSectionsIntoSpriteSheet sections n).pix (x : Int) (y : Int)
          = ⟨0, 0, 0, 0⟩) := by
  refine ⟨?_, ?_, ?_, ?_⟩
  · simp only [combineSectionsIntoSpriteSheet]
    rw [applyWrites_width, applyWrites_width]
    rfl
  · simp only [combineSectionsIntoSpriteSheet]
    rw [applyWrites_height, applyWrites_height]
    rfl
  · intro x y hx hyn
    have hy128 : y < 128 := by omega
    simp only [combineSectionsIntoSpriteSheet]
    refine Eq.trans (applyWrites_pix_untouched _ _ _ _ ?_) ?_
    · intro w hw
      obtain ⟨i, hi, hw1⟩ := List.mem_flatMap.mp hw
      obtain ⟨yy, hyy, hw2⟩ := List.mem_flatMap.mp hw1
      obtain ⟨a, ha, hwe⟩ := List.mem_map.mp hw2
      have hi2 : n ≤ i ∧ i < n + (4 - n) := List.mem_range'_1.mp hi
      have hyy2 := List.mem_range.mp hyy
      rw [← hwe]
      rintro ⟨h1, h2⟩
      have h3 : (((i * 32 + yy : Nat) : Int)) = (y : Int) := h2
      have h4 : i * 32 + yy = y := by exact_mod_cast h3
      omega
    · refine applyWrites_pix_eq_of_all _ _ _ _ _ ?_ ?_ (by positivity) ?_ (by positivity) ?_
      · intro w hw hm
        obtain ⟨i, hi, hw1⟩ := List.mem_flatMap.mp hw
        obtain ⟨yy, hyy, hw2⟩ := List.mem_flatMap.mp hw1
        obtain ⟨a, ha, hwe⟩ := List.mem_map.mp hw2
        have hi2 := List.mem_range.mp hi
        have hyy2 := List.mem_range.mp hyy
        rw [← hwe] at hm ⊢
        have h1 : ((a : Int)) = (x : Int) := hm.1
        have h2 : (((i * 32 + yy : Nat) : Int)) = (y : Int) := hm.2
        have hax : a = x := by exact_mod_cast h1
        have hiy : i * 32 + yy = y := by exact_mod_cast h2
        have hidiv : i = y / 32 := by omega
        have hymod : yy = y % 32 := by omega
        show (sections i).get (a : Int) (yy : Int) = _
        rw [hax, hidiv, hymod]
      · refine ⟨((x : Int), ((y / 32 * 32 + y % 32 : Nat) : Int),
            (sections (y / 32)).get (x : Int) ((y % 32 : Nat) : Int)), ?_, ?_, ?_⟩
        · refine List.mem_flatMap.mpr ⟨y / 32, List.mem_range.mpr (by omega), ?_⟩
          refine List.mem_flatMap.mpr ⟨y % 32, List.mem_range.mpr (by omega), ?_⟩
          exact List.mem_map.mpr ⟨x, List.mem_range.mpr hx, rfl⟩
        · rfl
        · show (((y / 32 * 32 + y % 32 : Nat) : Int)) = (y : Int)
          exact_mod_cast congrArg (fun m : Nat => (m : Int)) (by omega : y / 32 * 32 + y % 32 = y)
      · show (x : Int) < (((newRGBA 128 (32 * 4)).width : Nat) : Int)
        exact_mod_cast hx
      · show (y : Int) < (((newRGBA 128 (32 * 4)).height : Nat) : Int)
        exact_mod_cast (by omega : y < 32 * 4)
  · intro x y hx hny hy128
    simp only [combineSectionsIntoSpriteSheet]
    refine applyWrites_pix_eq_of_all _ _ _ _ _ ?_ ?_ (by positivity) ?_ (by positivity) ?_
    · intro w hw _
      obtain ⟨i, hi, hw1⟩ := List.mem_flatMap.mp hw
      obtain ⟨yy, hyy, hw2⟩ := List.mem_flatMap.mp hw1
      obtain ⟨a, ha, hwe⟩ := List.mem_map.mp hw2
      rw [← hwe]
    · refine ⟨((x : Int), ((y / 32 * 32 + y % 32 : Nat) : Int), (⟨0, 0, 0, 0⟩ : RGBA)),
        ?_, ?_, ?_⟩
      · refine List.mem_flatMap.mpr ⟨y / 32, List.mem_range'_1.mpr ⟨by omega, by omega⟩, ?_⟩
        refine List.mem_flatMap.mpr ⟨y % 32, List.mem_range.mpr (by omega), ?_⟩
        exact List.mem_map.mpr ⟨x, List.mem_range.mpr hx, rfl⟩
      · rfl
      · show (((y / 32 * 32 + y % 32 : Nat) : Int)) = (y : Int)
        exact_mod_cast congrArg (fun m : Nat => (m : Int)) (by omega : y / 32 * 32 + y % 32 = y)
    · show (x : Int) < (((applyWrites (newRGBA 128 (32 * 4)) _).width : Nat) : Int)
      rw [applyWrites_width]
      exact_mod_cast hx
    · show (y : Int) < (((applyWrites (newRGBA 128 (32 * 4)) _).height : Nat) : Int)
      rw [applyWrites_height]
      exact_mod_cast (by omega : y < 32 * 4)

/-- C8: the exported composite sheet is exactly 128x128 pixels, stitched
from the first numSections 128x32 section images top-to-bottom, where
numSections is 2 when both bands are active, 3 when exactly one is, and
4 when neither is; every pixel of the remaining band slots up to 4 has
alpha 0. -/
theorem composite_sheet_geometry (s3 s4 : Bool) (sections : Nat → Img) :
    (combineSectionsIntoSpriteSheet sections (numSectionsCanonical s3 s4)).width = 128
    ∧ (combineSectionsIntoSpriteSheet sections (numSectionsCanonical s3 s4)).height = 128
    ∧ (s3 = true → s4 = true → numSectionsCanonical s3 s4 = 2)
    ∧ (s3 ≠ s4 → numSectionsCanonical s3 s4 = 3)
    ∧ (s3 = false → s4 = false → numSectionsCanonical s3 s4 = 4)
    ∧ (∀ x y : Nat, x < 128 → y < 32 * numSectionsCanonical s3 s4 →
        (combineSectionsIntoSpriteSheet sections (numSectionsCanonical s3 s4)).pix
            (x : Int) (y : Int)
          = (sections (y / 32)).get (x : Int) ((y % 32 : Nat) : Int))
    ∧ (∀ x y : Nat, x < 128 → 32 * numSectionsCanonical s3 s4 ≤ y → y < 128 →
        ((combineSectionsIntoSpriteSheet sections (numSectionsCanonical s3 s4)).pix
            (x : Int) (y : Int)).a = 0) := by
  have hn : numSectionsCanonical s3 s4 ≤ 4 := by cases s3 <;> cases s4 <;> decide
  obtain ⟨hW, hH, hcopy, hfill⟩ := combineSections_pix sections (numSectionsCanonical s3 s4) hn
  refine ⟨hW, hH, ?_, ?_, ?_, hcopy, ?_⟩
  · intro h3 h4
    rw [h3, h4]
    decide
  · intro hne
    cases s3 <;> cases s4 <;> first | rfl | exact absurd rfl hne
  · intro h3 h4
    rw [h3, h4]
    decide
  · intro x y hx hny hy128
    rw [hfill x y hx hny hy128]

/-- Witness for C8: with both bands active (2 sections) the pixel at
(0, 100) of the combined sheet over blank 128x32 sections is fully
transparent, and the pixel at (0, 0) comes from section image 0. -/
theorem composite_sheet_geometry_witness :
    ((combineSectionsIntoSpriteSheet (fun _ => newRGBA 128 32)
        (numSectionsCanonical true true)).pix ((0 : Nat) : Int) ((100 : Nat) : Int)).a = 0
    ∧ (combineSectionsIntoSpriteSheet (fun _ => newRGBA 128 32)
        (numSectionsCanonical true true)).pix ((0 : Nat) : Int) ((0 : Nat) : Int)
      = (newRGBA 128 32).get ((0 : Nat) : Int) (((0 : Nat) % 32 : Nat) : Int) := by
  have h := composite_sheet_geometry true true (fun _ => newRGBA 128 32)
  exact ⟨h.2.2.2.2.2.2 0 100 (by decide) (by decide) (by decide),
    h.2.2.2.2.2.1 0 0 (by decide) (by decide)⟩

/-- Every base-section cell lies in columns 0..127 and rows 0..31. -/
theorem baseSectionCells_bounds (mapData : List (List Char)) (c : MapCell)
    (hc : c ∈ baseSectionCells mapData) :
    0 ≤ c.x ∧ c.x ≤ 127 ∧ 0 ≤ c.y ∧ c.y ≤ 31 := by
  unfold baseSectionCells at hc
  obtain ⟨y, hy, hc2⟩ := List.mem_flatMap.mp hc
  have hy32 := List.mem_range.mp hy
  by_cases hyl : y < mapData.length
  · rw [dif_pos hyl] at hc2
    obtain ⟨x, hx, hfx⟩ := List.mem_filterMap.mp hc2
    have hx128 := List.mem_range.mp hx
    by_cases hp : x * 2 + 1 < (mapData.get ⟨y, hyl⟩).length
    · rw [if_pos hp] at hfx
      have hc3 := Option.some_inj.mp hfx
      rw [← hc3]
      refine ⟨?_, ?_, ?_, ?_⟩
      · show (0 : Int) ≤ (x : Int)
        omega
      · show (x : Int) ≤ 127
        omega
      · show (0 : Int) ≤ (y : Int)
        omega
      · show (y : Int) ≤ 31
        omega
    · rw [if_neg hp] at hfx
      exact absurd hfx (by simp)
  · rw [dif_neg hyl] at hc2
    exact absurd hc2 (by simp)

/-- Every dual-purpose band cell lies in columns 0..127 and in the 16
output rows starting at the band base row, provided the band lines have
at most 128 characters and the band has at most 32 rows. -/
theorem dualSectionCells_bounds (sectionData : List (List Char)) (baseRow : Nat)
    (hlines : ∀ line ∈ sectionData, line.length ≤ 128)
    (hsec : sectionData.length ≤ 32) (c : MapCell)
    (hc : c ∈ dualSectionCells sectionData baseRow) :
    0 ≤ c.x ∧ c.x ≤ 127 ∧ (baseRow : Int) ≤ c.y ∧ c.y ≤ (baseRow : Int) + 15 := by
  unfold dualSectionCells at hc
  obtain ⟨y, hy, hc2⟩ := List.mem_flatMap.mp hc
  have hylen := List.mem_range.mp hy
  obtain ⟨x, hx, hcx⟩ := List.mem_map.mp hc2
  have hxr := List.mem_range.mp hx
  have hline128 : (sectionData.getD y []).length ≤ 128 := by
    refine hlines _ ?_
    rw [getD_eq_get sectionData [] y hylen]
    exact List.get_mem sectionData y hylen
  have hx64 : x < 64 := by omega
  have hy31 : y ≤ 31 := by omega
  by_cases hev : y % 2 = 0
  · rw [if_pos hev] at hcx
    rw [← hcx]
    refine ⟨?_, ?_, ?_, ?_⟩
    · show (0 : Int) ≤ (x : Int)
      omega
    · show (x : Int) ≤ 127
      omega
    · show (baseRow : Int) ≤ ((baseRow + y / 2 : Nat) : Int)
      omega
    · show ((baseRow + y / 2 : Nat) : Int) ≤ (baseRow : Int) + 15
      omega
  · rw [if_neg hev] at hcx
    rw [← hcx]
    refine ⟨?_, ?_, ?_, ?_⟩
    · show (0 : Int) ≤ ((64 + x : Nat) : Int)
      omega
    · show ((64 + x : Nat) : Int) ≤ 127
      omega
    · show (baseRow : Int) ≤ ((baseRow + (y - 1) / 2 : Nat) : Int)
      omega
    · show ((baseRow + (y - 1) / 2 : Nat) : Int) ≤ (baseRow : Int) + 15
      omega

/-- C10: with graphics lines of at most 128 characters, every emitted
map cell satisfies 0 ≤ x ≤ 127 and 0 ≤ y < height; base-section cells
occupy only rows 0..31, band-3 cells only rows 32..47, and band-4 cells
only rows 48..63. -/
theorem map_cells_in_bounds (mapData gfxData : List (List Char)) (s3 s4 : Bool)
    (hgfx : ∀ line ∈ gfxData, line.length ≤ 128) :
    (∀ c ∈ (generateMapJSON mapData gfxData s3 s4).cells,
        0 ≤ c.x ∧ c.x ≤ 127 ∧ 0 ≤ c.y
          ∧ c.y < (generateMapJSON mapData gfxData s3 s4).height)
    ∧ (∀ c ∈ baseSectionCells mapData, 0 ≤ c.y ∧ c.y ≤ 31)
    ∧ (∀ c ∈ dualSectionCells (bandSlice gfxData 64) 32, 32 ≤ c.y ∧ c.y ≤ 47)
    ∧ (∀ c ∈ dualSectionCells (bandSlice gfxData 96) 48, 48 ≤ c.y ∧ c.y ≤ 63) := by
  have hsub : ∀ startRow : Nat, ∀ line ∈ bandSlice gfxData startRow, line.length ≤ 128 :=
    fun startRow line hl =>
      hgfx line (List.drop_subset _ _ (List.take_subset _ _ hl))
  have hlen : ∀ startRow : Nat, (bandSlice gfxData startRow).length ≤ 32 := by
    intro startRow
    show ((gfxData.drop startRow).take 32).length ≤ 32
    rw [List.length_take]
    exact min_le_left _ _
  have hband3 := fun c hc =>
    dualSectionCells_bounds (bandSlice gfxData 64) 32 (hsub 64) (hlen 64) c hc
  have hband4 := fun c hc =>
    dualSectionCells_bounds (bandSlice gfxData 96) 48 (hsub 96) (hlen 96) c hc
  refine ⟨?_, ?_, ?_, ?_⟩
  · intro c hc
    have hh : (generateMapJSON mapData gfxData s3 s4).height = mapJSONHeight s3 s4 := rfl
    rcases List.mem_append.mp hc with h12 | h4
    · rcases List.mem_append.mp h12 with h1 | h3
      · obtain ⟨hx0, hx127, hy0, hy31⟩ := baseSectionCells_bounds mapData c h1
        refine ⟨hx0, hx127, hy0, ?_⟩
        rw [hh]
        have hge : (32 : Int) ≤ mapJSONHeight s3 s4 := by
          cases s3 <;> cases s4 <;> decide
        omega
      · by_cases h3s : s3 = true
        · rw [if_pos h3s] at h3
          obtain ⟨hx0, hx127, hyl, hyu⟩ := hband3 c h3
          refine ⟨hx0, hx127, by omega, ?_⟩
          rw [hh]
          have hge : (48 : Int) ≤ mapJSONHeight s3 s4 := by
            rw [h3s]
            cases s4 <;> decide
          omega
        · rw [if_neg h3s] at h3
          exact absurd h3 (by simp)
    · by_cases h4s : s4 = true
      · rw [if_pos h4s] at h4
        obtain ⟨hx0, hx127, hyl, hyu⟩ := hband4 c h4
        refine ⟨hx0, hx127, by omega, ?_⟩
        rw [hh]
        have hge : mapJSONHeight s3 s4 = 64 := by
          rw [h4s]
          cases s3 <;> decide
        omega
      · rw [if_neg h4s] at h4
        exact absurd h4 (by simp)
  · intro c hc
    have hb := baseSectionCells_bounds mapData c hc
    exact ⟨hb.2.2.1, hb.2.2.2⟩
  · intro c hc
    have hb := hband3 c hc
    have h1 := hb.2.2.1
    have h2 := hb.2.2.2
    exact ⟨by omega, by omega⟩
  · intro c hc
    have hb := hband4 c hc
    have h1 := hb.2.2.1
    have h2 := hb.2.2.2
    exact ⟨by omega, by omega⟩

/-- Witness for C10: the single cell of a one-pair tilemap is in bounds
for the 128 x 32 descriptor. -/
theorem map_cells_in_bounds_witness :
    0 ≤ (MapCell.mk 0 0 18).x ∧ (MapCell.mk 0 0 18).x ≤ 127
      ∧ 0 ≤ (MapCell.mk 0 0 18).y
      ∧ (MapCell.mk 0 0 18).y < (generateMapJSON [['1', '2']] [] false false).height := by
  have h := map_cells_in_bounds [['1', '2']] [] false false (by simp)
  exact h.1 ⟨0, 0, 18⟩ (by decide)

end Parsepico
